import Mathlib

/-!
Shallow embedding of the candidate query/update engine of the recruitment
platform backend (services/candidateService.ts, lib/validations.ts), together
with proofs of the specification claims about it.

Conventions of the embedding:
* The Prisma candidate table is a `List Candidate`; `findUnique` is `List.find?`
  on the id, `findMany` with a `where` clause is `List.filter`.
* JS `Date.now()` timestamps are `Nat` milliseconds, passed explicitly.
* JS numbers used in the similarity score are embedded as `ℚ` (all the
  arithmetic involved is exact).
* The in-memory list cache (`Map<string, CacheEntry>` keyed by
  `JSON.stringify(query)`) is an association list keyed by the query record
  itself; `Map.set` prepends and `Map.get` takes the first match.
* `undefined` becomes `none`; JS string truthiness (`if (q)`) is
  `strTruthy`.
-/

namespace Recruit

/-- Case-insensitive normalisation, embedding JS `String.prototype.toLowerCase`:
every character of the string is lowercased. -/
def lowerStr (s : String) : String := ⟨s.data.map Char.toLower⟩

/-- Prisma `{ contains: sub, mode: 'insensitive' }`: case-insensitive substring test. -/
def ciContains (field sub : String) : Bool :=
  decide ((lowerStr sub).data <:+: (lowerStr field).data)

/-- A candidate record, as stored (prisma/schema: model Candidate). -/
structure Candidate where
  id : String
  fullName : String
  headline : String
  location : String
  yearsOfExperience : Int
  skills : List String
  availability : String
  status : String
  score : Int
  shortlisted : Bool
  rejected : Bool
  createdAt : Nat
  updatedAt : Nat
deriving DecidableEq

/-- An audit event as created by `updateCandidate` (`from`/`to` are the
stringified old and new values; the Lean field names avoid the keyword `from`). -/
structure AuditEvent where
  action : String
  fromVal : String
  toVal : String
deriving DecidableEq

/-- Sort fields of `ListCandidatesQuery` (models/listCandidatesQuery.ts:
`sort?: 'updatedAt' | 'score' | 'yearsOfExperience'`). -/
inductive SortField where
  | updatedAt
  | score
  | yearsOfExperience
deriving DecidableEq

/-- Sort order (`'asc' | 'desc'`). -/
inductive SortOrder where
  | asc
  | desc
deriving DecidableEq

/-- Validated list query (models/listCandidatesQuery.ts), all fields optional. -/
structure ListCandidatesQuery where
  q : Option String := none
  location : Option String := none
  skill : Option String := none
  status : Option String := none
  availability : Option String := none
  minExp : Option Int := none
  maxExp : Option Int := none
  sort : Option SortField := none
  order : Option SortOrder := none
  page : Option Nat := none
  pageSize : Option Nat := none
deriving DecidableEq

/-- Patch body of `PATCH /candidates/:id` (models/updateCandidateRequest.ts). -/
structure UpdateCandidateRequest where
  status : Option String := none
  shortlisted : Option Bool := none
  rejected : Option Bool := none
deriving DecidableEq

/-- JS truthiness of an optional string: `undefined` and `""` are falsy. -/
def strTruthy : Option String → Bool
  | none => false
  | some s => !s.isEmpty

/-- Prisma `hasSome: vals` on an array column: the stored array contains at
least one of the listed values (exact equality). -/
def hasSome (arr vals : List String) : Bool :=
  vals.any (fun v => arr.contains v)

/-- The `where.OR` built from the `q` parameter in `listCandidates`:
fullName contains q (insensitive) OR headline contains q (insensitive) OR
`skills: { hasSome: [q] }`. -/
def matchesQ (c : Candidate) (q : String) : Bool :=
  ciContains c.fullName q || ciContains c.headline q || hasSome c.skills [q]

/-- An optional string filter is applied only when the raw value is truthy
(`if (x) { where... }`); otherwise every candidate passes. -/
def optFilter (o : Option String) (f : String → Bool) : Bool :=
  match o with
  | some s => if s.isEmpty then true else f s
  | none => true

/-- An optional numeric filter is applied whenever the value is present
(`if (x !== undefined)`). -/
def optIntFilter (o : Option Int) (f : Int → Bool) : Bool :=
  match o with
  | some n => f n
  | none => true

/-- The full `where` clause of `listCandidates`: all supplied filters AND-ed. -/
def matchesWhere (qry : ListCandidatesQuery) (c : Candidate) : Bool :=
  optFilter qry.q (matchesQ c) &&
  optFilter qry.location (fun s => ciContains c.location s) &&
  optFilter qry.skill (fun s => c.skills.contains s) &&
  optFilter qry.status (fun s => ciContains c.status s) &&
  optFilter qry.availability (fun s => ciContains c.availability s) &&
  optIntFilter qry.minExp (fun n => decide (n ≤ c.yearsOfExperience)) &&
  optIntFilter qry.maxExp (fun n => decide (c.yearsOfExperience ≤ n))

/-- Comparison key for `orderBy: { [sort]: ... }` in ascending direction. -/
def sortFieldLe (f : SortField) (a b : Candidate) : Bool :=
  match f with
  | .updatedAt => decide (a.updatedAt ≤ b.updatedAt)
  | .score => decide (a.score ≤ b.score)
  | .yearsOfExperience => decide (a.yearsOfExperience ≤ b.yearsOfExperience)

/-- Comparison for `orderBy: { [sort]: order }`. -/
def orderLe (f : SortField) (o : SortOrder) (a b : Candidate) : Bool :=
  match o with
  | .asc => sortFieldLe f a b
  | .desc => sortFieldLe f b a

/-- The `meta` object of a list response. -/
structure ListMeta where
  page : Nat
  pageSize : Nat
  total : Nat
  totalPages : Nat
deriving DecidableEq

/-- A list response (models/candidateListResponse.ts). -/
structure CandidateListResponse where
  data : List Candidate
  meta : ListMeta
deriving DecidableEq

/-- The storage round trip of `listCandidates` on a cache miss: count the
matching rows, sort, apply offset-limit pagination, and assemble the
response.  `skip = (page-1)*pageSize`, `totalPages = ceil(total/pageSize)`. -/
def computeListResult (store : List Candidate) (qry : ListCandidatesQuery) :
    CandidateListResponse :=
  let sort := qry.sort.getD .updatedAt
  let order := qry.order.getD .desc
  let page := qry.page.getD 1
  let pageSize := qry.pageSize.getD 12
  let filtered := store.filter (matchesWhere qry)
  let total := filtered.length
  let skip := (page - 1) * pageSize
  let totalPages := (total + pageSize - 1) / pageSize
  let sorted := filtered.mergeSort (orderLe sort order)
  { data := (sorted.drop skip).take pageSize,
    meta := { page := page, pageSize := pageSize, total := total,
              totalPages := totalPages } }

/-- Cache TTL: `5 * 60 * 1000` milliseconds. -/
def CACHE_TTL : Nat := 5 * 60 * 1000

/-- One list-cache entry: the cached response and its insertion time. -/
structure CacheEntry where
  data : CandidateListResponse
  timestamp : Nat
deriving DecidableEq

/-- The whole server state: the candidate table, the persisted audit rows
(tagged with their candidate id), and the in-memory list cache. -/
structure ServerState where
  store : List Candidate
  audit : List (String × AuditEvent)
  listCache : List (ListCandidatesQuery × CacheEntry)
deriving DecidableEq

/-- `listCache.get(cacheKey)`: first entry whose key equals the query. -/
def cacheLookup (cache : List (ListCandidatesQuery × CacheEntry))
    (k : ListCandidatesQuery) : Option CacheEntry :=
  (cache.find? (fun e => decide (e.1 = k))).map Prod.snd

/-- Typed errors raised by the service layer. -/
inductive ServiceError where
  | notFound
  | storage
deriving DecidableEq

/-- `prisma.candidate.findUnique({ where: { id } })`. -/
def findUnique (store : List Candidate) (id : String) : Option Candidate :=
  store.find? (fun c => c.id == id)

/-- The cache-miss path of `listCandidates`: compute the result from the
store and insert it into the cache with the current timestamp.  The returned
`Bool` records that the store was read. -/
def listCandidatesMiss (st : ServerState) (now : Nat) (qry : ListCandidatesQuery) :
    CandidateListResponse × Bool × ServerState :=
  let result := computeListResult st.store qry
  (result, true,
   { st with listCache := (qry, { data := result, timestamp := now }) :: st.listCache })

/-- `listCandidates`: serve from the cache if the entry is younger than
`CACHE_TTL`, otherwise read the store and cache the result.  The middle
component is `true` iff the store was read. -/
def listCandidates (st : ServerState) (now : Nat) (qry : ListCandidatesQuery) :
    CandidateListResponse × Bool × ServerState :=
  match cacheLookup st.listCache qry with
  | some entry =>
      if now - entry.timestamp < CACHE_TTL then (entry.data, false, st)
      else listCandidatesMiss st now qry
  | none => listCandidatesMiss st now qry

/-- The audit entry staged for the `status` field: present iff the patch
supplies a status different from the current one
(`updates.status !== undefined && updates.status !== candidate.status`). -/
def stagedStatus (c : Candidate) (updates : UpdateCandidateRequest) :
    List AuditEvent :=
  match updates.status with
  | some s => if s ≠ c.status then [⟨"status_updated", c.status, s⟩] else []
  | none => []

/-- The audit entry staged for the `shortlisted` field; booleans are
stringified with `String(...)`. -/
def stagedShortlisted (c : Candidate) (updates : UpdateCandidateRequest) :
    List AuditEvent :=
  match updates.shortlisted with
  | some b =>
      if b ≠ c.shortlisted then
        [⟨"shortlisted_updated", toString c.shortlisted, toString b⟩]
      else []
  | none => []

/-- The audit entry staged for the `rejected` field. -/
def stagedRejected (c : Candidate) (updates : UpdateCandidateRequest) :
    List AuditEvent :=
  match updates.rejected with
  | some b =>
      if b ≠ c.rejected then
        [⟨"rejected_updated", toString c.rejected, toString b⟩]
      else []
  | none => []

/-- The audit entries staged by `updateCandidate`: one per tracked field that
is present in the patch and differs from the current value, in source order
(status, shortlisted, rejected). -/
def stagedAuditEntries (c : Candidate) (updates : UpdateCandidateRequest) :
    List AuditEvent :=
  stagedStatus c updates ++ stagedShortlisted c updates ++ stagedRejected c updates

/-- The `data` of the `prisma.candidate.update` call: each tracked field is
`patch.field ?? candidate.field`; `@updatedAt` bumps the timestamp. -/
def applyPatch (c : Candidate) (updates : UpdateCandidateRequest) (now : Nat) :
    Candidate :=
  { c with
    status := updates.status.getD c.status,
    shortlisted := updates.shortlisted.getD c.shortlisted,
    rejected := updates.rejected.getD c.rejected,
    updatedAt := now }

/-- `updateCandidate(id, updates)`.  It first clears the whole list cache,
then loads the candidate (NotFoundError if absent), stages the audit diff,
and commits the mutation and the staged audit rows as one transaction.
`storageOk = false` models the transaction failing at the storage layer,
in which case nothing is written. -/
def updateCandidate (st : ServerState) (now : Nat) (id : String)
    (updates : UpdateCandidateRequest) (storageOk : Bool) :
    Except ServiceError (Candidate × List AuditEvent) × ServerState :=
  match findUnique st.store id with
  | none => (Except.error .notFound, { st with listCache := [] })
  | some c =>
      if storageOk then
        (Except.ok (applyPatch c updates now, stagedAuditEntries c updates),
         { listCache := [],
           store := st.store.map
             (fun x => if x.id = id then applyPatch c updates now else x),
           audit := st.audit ++
             (stagedAuditEntries c updates).map (fun e => (id, e)) })
      else (Except.error .storage, { st with listCache := [] })

/-- `commonSkills`: the candidate's skills that the target also has. -/
def commonSkills (c t : Candidate) : List String :=
  c.skills.filter (fun s => t.skills.contains s)

/-- Skill-overlap component (50%):
`(commonSkills.length / max(|skills(C)|, |skills(T)|, 1)) * 50`. -/
def skillScore (t c : Candidate) : ℚ :=
  ((commonSkills c t).length : ℚ)
    / ((max c.skills.length (max t.skills.length 1) : ℕ) : ℚ) * 50

/-- Location component (30%): 30 iff the lowercased locations are equal. -/
def locationScore (t c : Candidate) : ℚ :=
  if lowerStr c.location = lowerStr t.location then 30 else 0

/-- Experience component (20%): `max(0, 20 - |Δyears| * 2)`. -/
def experienceScore (t c : Candidate) : ℚ :=
  max 0 (20 - ((c.yearsOfExperience - t.yearsOfExperience).natAbs : ℚ) * 2)

/-- Total similarity score of candidate `c` against target `t`. -/
def relScore (t c : Candidate) : ℚ :=
  skillScore t c + locationScore t c + experienceScore t c

/-- The comparison underlying `sort((a, b) => b.score - a.score)`:
`a` may precede `b` iff `a`'s score is at least `b`'s. -/
def relLe (t : Candidate) (a b : Candidate) : Bool :=
  decide (relScore t b ≤ relScore t a)

/-- `getRelatedCandidates(id, limit)`: NotFoundError if the target is absent;
otherwise score every other candidate, sort descending by score (JS
`Array.prototype.sort` is stable), and take the first `limit`. -/
def getRelatedCandidates (st : ServerState) (id : String) (limit : Nat) :
    Except ServiceError (List Candidate) :=
  match findUnique st.store id with
  | none => Except.error .notFound
  | some t =>
      let others := st.store.filter (fun c => !(c.id == id))
      Except.ok ((others.mergeSort (relLe t)).take limit)

/-- `getRelatedCandidates` with its default `limit = 8`. -/
def getRelatedCandidatesDefault (st : ServerState) (id : String) :
    Except ServiceError (List Candidate) :=
  getRelatedCandidates st id 8

/-- Raw query-string input of `validateListCandidatesQuery`.  Numeric fields
are `Option (Option Int)`: the outer layer is presence, the inner layer is
the outcome of `parseInt(raw, 10)` (`none` = `NaN`). -/
structure RawListQuery where
  q : Option String := none
  location : Option String := none
  skill : Option String := none
  status : Option String := none
  availability : Option String := none
  page : Option (Option Int) := none
  pageSize : Option (Option Int) := none
  minExp : Option (Option Int) := none
  maxExp : Option (Option Int) := none
  sort : Option String := none
  order : Option String := none
deriving DecidableEq

/-- `validateListCandidatesQuery` (lib/validations.ts).  Per-field messages
accumulate in source order (page, pageSize, sort, order, minExp, maxExp,
experience); a non-empty error set raises ValidationError, modelled as
`Except.error` carrying the field/message pairs, and no result is produced. -/
def validateListCandidatesQuery (query : RawListQuery) :
    Except (List (String × String)) ListCandidatesQuery :=
  let pageV : Int × List (String × String) :=
    match query.page with
    | none => (1, [])
    | some none => (1, [("page", "Page must be a positive integer")])
    | some (some n) =>
        if n < 1 then (1, [("page", "Page must be a positive integer")])
        else (n, [])
  let pageSizeV : Int × List (String × String) :=
    match query.pageSize with
    | none => (12, [])
    | some none => (12, [("pageSize", "Page size must be between 1 and 50")])
    | some (some n) =>
        if n < 1 ∨ n > 50 then
          (12, [("pageSize", "Page size must be between 1 and 50")])
        else (n, [])
  let sortV : SortField × List (String × String) :=
    match query.sort with
    | none => (.updatedAt, [])
    | some s =>
        if s = "updatedAt" then (.updatedAt, [])
        else if s = "score" then (.score, [])
        else if s = "yearsOfExperience" then (.yearsOfExperience, [])
        else (.updatedAt,
          [("sort", "Sort must be one of: updatedAt, score, yearsOfExperience")])
  let orderV : SortOrder × List (String × String) :=
    match query.order with
    | none => (.desc, [])
    | some s =>
        if s = "asc" then (.asc, [])
        else if s = "desc" then (.desc, [])
        else (.desc, [("order", "Order must be either asc or desc")])
  let minExpV : Option Int × List (String × String) :=
    match query.minExp with
    | none => (none, [])
    | some none =>
        (none, [("minExp", "Minimum experience must be a non-negative number")])
    | some (some n) =>
        if n < 0 then
          (none, [("minExp", "Minimum experience must be a non-negative number")])
        else (some n, [])
  let maxExpV : Option Int × List (String × String) :=
    match query.maxExp with
    | none => (none, [])
    | some none =>
        (none, [("maxExp", "Maximum experience must be a non-negative number")])
    | some (some n) =>
        if n < 0 then
          (none, [("maxExp", "Maximum experience must be a non-negative number")])
        else (some n, [])
  let crossV : List (String × String) :=
    match minExpV.1, maxExpV.1 with
    | some a, some b =>
        if a > b then [("experience", "minExp cannot be greater than maxExp")]
        else []
    | _, _ => []
  let errors := pageV.2 ++ pageSizeV.2 ++ sortV.2 ++ orderV.2 ++ minExpV.2 ++
    maxExpV.2 ++ crossV
  if errors.isEmpty then
    Except.ok
      { q := query.q, location := query.location, skill := query.skill,
        status := query.status, availability := query.availability,
        minExp := minExpV.1, maxExp := maxExpV.1,
        sort := some sortV.1, order := some orderV.1,
        page := some pageV.1.toNat, pageSize := some pageSizeV.1.toNat }
  else Except.error errors

/-! ### Concrete fixtures used by the example-based parts of the claims -/

/-- The target of the spec's worked related-candidates example. -/
def exTarget : Candidate :=
  { id := "t1", fullName := "Target One", headline := "Senior Developer",
    location := "San Francisco, CA", yearsOfExperience := 8,
    skills := ["JavaScript", "React", "Node.js"], availability := "immediate",
    status := "screening", score := 85, shortlisted := false, rejected := false,
    createdAt := 0, updatedAt := 0 }

/-- The compared candidate of the spec's worked related-candidates example. -/
def exCand : Candidate :=
  { id := "c1", fullName := "Candidate One", headline := "Full-Stack Developer",
    location := "San Francisco, CA", yearsOfExperience := 7,
    skills := ["JavaScript", "React", "TypeScript"], availability := "2 weeks",
    status := "screening", score := 80, shortlisted := false, rejected := false,
    createdAt := 0, updatedAt := 0 }

/-! ### Claim theorems -/

/-- C2: for every target `t` and candidate `c`, the similarity score is
`skillScore + locationScore + experienceScore` with
`skillScore = |skills(c) ∩ skills(t)| × 50 / max(|skills(c)|, |skills(t)|, 1)`,
`locationScore = 30` iff the locations match case-insensitively, and
`experienceScore = max(0, 20 − 2·|Δyears|)`; on the spec's worked example
(skills {JavaScript, React, Node.js} vs {JavaScript, React, TypeScript},
equal location, experience 8 vs 7) the score is `244/3 ≈ 81.33`. -/
theorem c2_related_score_formula :
    (∀ t c : Candidate,
        relScore t c =
          ((c.skills.inter t.skills).length : ℚ) * 50
              / ((max c.skills.length (max t.skills.length 1) : ℕ) : ℚ)
            + (if lowerStr c.location = lowerStr t.location then (30 : ℚ) else 0)
            + max 0 (20 - 2 * ((c.yearsOfExperience - t.yearsOfExperience).natAbs : ℚ))) ∧
    relScore exTarget exCand = 244 / 3 ∧
    |relScore exTarget exCand - 8133 / 100| < 1 / 100 := by
  have hskill : skillScore exTarget exCand = 100 / 3 := by
    have hcommon : commonSkills exCand exTarget = ["JavaScript", "React"] := by
      decide
    have hden : max exCand.skills.length (max exTarget.skills.length 1) = 3 := rfl
    unfold skillScore
    rw [hcommon, hden]
    norm_num
  have hloc : locationScore exTarget exCand = 30 := by
    unfold locationScore
    rw [if_pos (by decide)]
  have hexp : experienceScore exTarget exCand = 18 := by
    have hd : (exCand.yearsOfExperience - exTarget.yearsOfExperience).natAbs = 1 :=
      rfl
    unfold experienceScore
    rw [hd]
    norm_num
  have htot : relScore exTarget exCand = 244 / 3 := by
    unfold relScore
    rw [hskill, hloc, hexp]
    norm_num
  refine ⟨fun t c => ?_, htot, ?_⟩
  · have hcommon : commonSkills c t = c.skills.inter t.skills := rfl
    unfold relScore skillScore locationScore experienceScore
    rw [hcommon, div_mul_eq_mul_div, mul_comm ((Int.natAbs _ : ℚ)) 2]
  · rw [htot, abs_lt]
    constructor <;> norm_num

/-- The q-filter predicate as claim C5 words it: fullName or headline contains
q case-insensitively, or some element of the skills array contains or equals q.
(Stated from the claim's words, to be compared with the code's `matchesQ`.) -/
def qFilterClaimed (c : Candidate) (q : String) : Bool :=
  ciContains c.fullName q || ciContains c.headline q ||
  c.skills.any (fun s => decide (q.data <:+: s.data) || s == q)

/-- A candidate whose only connection to the term "JavaScript" is the skill
"JavaScripting", which contains but does not equal the term. -/
def c5Cand : Candidate :=
  { id := "c5", fullName := "Alice Smith", headline := "Backend Engineer",
    location := "Berlin", yearsOfExperience := 5,
    skills := ["JavaScripting"], availability := "immediate",
    status := "screening", score := 70, shortlisted := false, rejected := false,
    createdAt := 0, updatedAt := 0 }

/-- C5 counterexample: the claim says a skill that merely *contains* the
search term matches, but the code's q-filter (Prisma `hasSome: [q]`, exact
membership) rejects the candidate whose skill "JavaScripting" contains
"JavaScript" without equalling it. -/
theorem c5_counterexample :
    qFilterClaimed c5Cand "JavaScript" = true ∧
    matchesQ c5Cand "JavaScript" = false := by
  exact ⟨by decide, by decide⟩

/-- C5 (amended): a candidate satisfies the q filter iff its fullName contains
q case-insensitively, or its headline contains q case-insensitively, or some
element of its skills array *equals* q exactly. -/
theorem c5_q_filter_amended (c : Candidate) (s : String) :
    matchesQ c s = true ↔
      (ciContains c.fullName s = true ∨ ciContains c.headline s = true ∨
       s ∈ c.skills) := by
  unfold matchesQ hasSome
  simp only [List.any_cons, List.any_nil, Bool.or_false, Bool.or_eq_true,
    List.contains_eq_any_beq, List.any_eq_true, beq_iff_eq]
  constructor
  · rintro ((h | h) | ⟨x, hx, h2⟩)
    · exact Or.inl h
    · exact Or.inr (Or.inl h)
    · subst h2
      exact Or.inr (Or.inr hx)
  · rintro (h | h | h)
    · exact Or.inl (Or.inl h)
    · exact Or.inl (Or.inr h)
    · exact Or.inr ⟨s, h, rfl⟩

/-- C6: the claim says pageSize values throughout [1,100] are accepted, but
the code's bound is 50: pageSize = 100 (and 51) is rejected with a pageSize
field message, while 50 is accepted.  This contradicts the repository's own
README ("max: 100"). -/
theorem c6_pageSize_bound_evaluation :
    validateListCandidatesQuery { pageSize := some (some 100) } =
      Except.error [("pageSize", "Page size must be between 1 and 50")] ∧
    validateListCandidatesQuery { pageSize := some (some 51) } =
      Except.error [("pageSize", "Page size must be between 1 and 50")] ∧
    validateListCandidatesQuery { pageSize := some (some 50) } =
      Except.ok
        { sort := some .updatedAt, order := some .desc,
          page := some 1, pageSize := some 50 } ∧
    validateListCandidatesQuery { pageSize := some (some 1) } =
      Except.ok
        { sort := some .updatedAt, order := some .desc,
          page := some 1, pageSize := some 1 } ∧
    validateListCandidatesQuery { pageSize := some none } =
      Except.error [("pageSize", "Page size must be between 1 and 50")] := by
  refine ⟨rfl, rfl, rfl, rfl, rfl⟩

/-- C7: the claim says sort ∈ {updatedAt, createdAt, fullName,
yearsOfExperience, score} is accepted, but the code accepts only
{updatedAt, score, yearsOfExperience}: "createdAt" and "fullName" are
rejected with a sort field message.  This contradicts the repository's own
README, which documents all five sort fields. -/
theorem c7_sort_values_evaluation :
    validateListCandidatesQuery { sort := some "createdAt" } =
      Except.error
        [("sort", "Sort must be one of: updatedAt, score, yearsOfExperience")] ∧
    validateListCandidatesQuery { sort := some "fullName" } =
      Except.error
        [("sort", "Sort must be one of: updatedAt, score, yearsOfExperience")] ∧
    validateListCandidatesQuery { sort := some "updatedAt" } =
      Except.ok
        { sort := some .updatedAt, order := some .desc,
          page := some 1, pageSize := some 12 } ∧
    validateListCandidatesQuery { sort := some "score" } =
      Except.ok
        { sort := some .score, order := some .desc,
          page := some 1, pageSize := some 12 } ∧
    validateListCandidatesQuery { sort := some "yearsOfExperience" } =
      Except.ok
        { sort := some .yearsOfExperience, order := some .desc,
          page := some 1, pageSize := some 12 } := by
  refine ⟨rfl, rfl, rfl, rfl, rfl⟩

/-- C10: for each of the filter fields q, location, skill, status and
availability, supplying the empty string behaves exactly as omitting the
field (JS truthiness skips the filter): the computed list result is
identical, and with an empty cache a full `listCandidates` call returns the
same response either way. -/
theorem c10_empty_string_equals_absent (store : List Candidate)
    (qry : ListCandidatesQuery) :
    (computeListResult store { qry with q := some "" } =
        computeListResult store { qry with q := none } ∧
      computeListResult store { qry with location := some "" } =
        computeListResult store { qry with location := none } ∧
      computeListResult store { qry with skill := some "" } =
        computeListResult store { qry with skill := none } ∧
      computeListResult store { qry with status := some "" } =
        computeListResult store { qry with status := none } ∧
      computeListResult store { qry with availability := some "" } =
        computeListResult store { qry with availability := none }) ∧
    (∀ st : ServerState, ∀ now : Nat, st.listCache = [] →
      ((listCandidates st now { qry with q := some "" }).1 =
          (listCandidates st now { qry with q := none }).1 ∧
        (listCandidates st now { qry with location := some "" }).1 =
          (listCandidates st now { qry with location := none }).1 ∧
        (listCandidates st now { qry with skill := some "" }).1 =
          (listCandidates st now { qry with skill := none }).1 ∧
        (listCandidates st now { qry with status := some "" }).1 =
          (listCandidates st now { qry with status := none }).1 ∧
        (listCandidates st now { qry with availability := some "" }).1 =
          (listCandidates st now { qry with availability := none }).1)) := by
  refine ⟨⟨rfl, rfl, rfl, rfl, rfl⟩, ?_⟩
  rintro ⟨s, a, c⟩ now h
  simp only at h
  subst h
  exact ⟨rfl, rfl, rfl, rfl, rfl⟩

/-- Witness for C10 at a concrete one-candidate store with an empty cache. -/
theorem c10_empty_string_equals_absent_witness :
    (listCandidates ⟨[exTarget], [], []⟩ 0
        { ({} : ListCandidatesQuery) with q := some "" }).1 =
      (listCandidates ⟨[exTarget], [], []⟩ 0
        { ({} : ListCandidatesQuery) with q := none }).1 :=
  (((c10_empty_string_equals_absent [exTarget] {}).2) ⟨[exTarget], [], []⟩ 0 rfl).1

/-! ### Helper lemmas about the update/audit engine -/

theorem stagedStatus_of_change (c : Candidate) (updates : UpdateCandidateRequest)
    (s : String) (hs : updates.status = some s) (hne : s ≠ c.status) :
    stagedStatus c updates = [⟨"status_updated", c.status, s⟩] := by
  simp only [stagedStatus, hs]
  rw [if_pos hne]

theorem stagedStatus_of_nochange (c : Candidate) (updates : UpdateCandidateRequest)
    (hs : updates.status = none ∨ updates.status = some c.status) :
    stagedStatus c updates = [] := by
  rcases hs with h | h
  · simp only [stagedStatus, h]
  · simp [stagedStatus, h]

theorem stagedShortlisted_of_change (c : Candidate)
    (updates : UpdateCandidateRequest) (b : Bool)
    (hb : updates.shortlisted = some b) (hne : b ≠ c.shortlisted) :
    stagedShortlisted c updates =
      [⟨"shortlisted_updated", toString c.shortlisted, toString b⟩] := by
  simp only [stagedShortlisted, hb]
  rw [if_pos hne]

theorem stagedShortlisted_of_nochange (c : Candidate)
    (updates : UpdateCandidateRequest)
    (hb : updates.shortlisted = none ∨ updates.shortlisted = some c.shortlisted) :
    stagedShortlisted c updates = [] := by
  rcases hb with h | h
  · simp only [stagedShortlisted, h]
  · simp [stagedShortlisted, h]

theorem stagedRejected_of_change (c : Candidate)
    (updates : UpdateCandidateRequest) (b : Bool)
    (hb : updates.rejected = some b) (hne : b ≠ c.rejected) :
    stagedRejected c updates =
      [⟨"rejected_updated", toString c.rejected, toString b⟩] := by
  simp only [stagedRejected, hb]
  rw [if_pos hne]

theorem stagedRejected_of_nochange (c : Candidate)
    (updates : UpdateCandidateRequest)
    (hb : updates.rejected = none ∨ updates.rejected = some c.rejected) :
    stagedRejected c updates = [] := by
  rcases hb with h | h
  · simp only [stagedRejected, h]
  · simp [stagedRejected, h]

theorem stagedStatus_action (c : Candidate) (updates : UpdateCandidateRequest) :
    ∀ e ∈ stagedStatus c updates, e.action = "status_updated" := by
  intro e he
  rcases h : updates.status with _ | s
  · simp [stagedStatus, h] at he
  · simp only [stagedStatus, h] at he
    by_cases hne : s ≠ c.status
    · rw [if_pos hne] at he
      rw [List.mem_singleton.mp he]
    · rw [if_neg hne] at he
      cases he

theorem stagedShortlisted_action (c : Candidate)
    (updates : UpdateCandidateRequest) :
    ∀ e ∈ stagedShortlisted c updates, e.action = "shortlisted_updated" := by
  intro e he
  rcases h : updates.shortlisted with _ | b
  · simp [stagedShortlisted, h] at he
  · simp only [stagedShortlisted, h] at he
    by_cases hne : b ≠ c.shortlisted
    · rw [if_pos hne] at he
      rw [List.mem_singleton.mp he]
    · rw [if_neg hne] at he
      cases he

theorem stagedRejected_action (c : Candidate)
    (updates : UpdateCandidateRequest) :
    ∀ e ∈ stagedRejected c updates, e.action = "rejected_updated" := by
  intro e he
  rcases h : updates.rejected with _ | b
  · simp [stagedRejected, h] at he
  · simp only [stagedRejected, h] at he
    by_cases hne : b ≠ c.rejected
    · rw [if_pos hne] at he
      rw [List.mem_singleton.mp he]
    · rw [if_neg hne] at he
      cases he

theorem countP_action_zero {l : List AuditEvent} {a b : String}
    (h : ∀ e ∈ l, e.action = a) (hne : a ≠ b) :
    l.countP (fun e => e.action == b) = 0 := by
  rw [List.countP_eq_zero]
  intro e he
  simp [h e he, hne]

theorem updateCandidate_ok_elim {st : ServerState} {now : Nat} {id : String}
    {updates : UpdateCandidateRequest} {u : Candidate}
    {entries : List AuditEvent} {st' : ServerState}
    (h : updateCandidate st now id updates true = (Except.ok (u, entries), st')) :
    ∃ c, findUnique st.store id = some c ∧
      u = applyPatch c updates now ∧
      entries = stagedAuditEntries c updates ∧
      st' = { listCache := [],
              store := st.store.map (fun x => if x.id = id then u else x),
              audit := st.audit ++ entries.map (fun e => (id, e)) } := by
  rcases hf : findUnique st.store id with _ | c
  · simp [updateCandidate, hf] at h
  · simp only [updateCandidate, hf, reduceIte, Prod.mk.injEq, Except.ok.injEq] at h
    obtain ⟨⟨hu, he⟩, hst⟩ := h
    subst hu
    subst he
    exact ⟨c, rfl, rfl, rfl, hst.symm⟩

theorem updateCandidate_error_elim {st : ServerState} {now : Nat} {id : String}
    {updates : UpdateCandidateRequest} {storageOk : Bool} {err : ServiceError}
    {st' : ServerState}
    (h : updateCandidate st now id updates storageOk = (Except.error err, st')) :
    st' = { st with listCache := [] } := by
  rcases hf : findUnique st.store id with _ | c
  · simp only [updateCandidate, hf, Prod.mk.injEq] at h
    exact h.2.symm
  · cases storageOk
    · simp only [updateCandidate, hf, Bool.false_eq_true, if_false,
        Prod.mk.injEq] at h
      exact h.2.symm
    · simp [updateCandidate, hf] at h

/-! ### Claim theorems about update/audit -/

/-- C1: on a successful `updateCandidate` of an existing candidate, each of
the three tracked fields that is present in the patch with a value different
from the current one contributes exactly one audit event, with action
`<field>_updated`, `from` the stringified old value and `to` the stringified
new value; a field absent from the patch or equal to its current value
contributes none, and a patch changing nothing appends zero audit entries. -/
theorem c1_update_audit_events (st : ServerState) (now : Nat) (id : String)
    (updates : UpdateCandidateRequest) (c u : Candidate)
    (entries : List AuditEvent) (st' : ServerState)
    (hc : findUnique st.store id = some c)
    (h : updateCandidate st now id updates true = (Except.ok (u, entries), st')) :
    (∀ s, updates.status = some s → s ≠ c.status →
        entries.countP (fun e => e.action == "status_updated") = 1 ∧
        ∀ e ∈ entries, e.action = "status_updated" →
          e.fromVal = c.status ∧ e.toVal = s) ∧
    ((updates.status = none ∨ updates.status = some c.status) →
        entries.countP (fun e => e.action == "status_updated") = 0) ∧
    (∀ b, updates.shortlisted = some b → b ≠ c.shortlisted →
        entries.countP (fun e => e.action == "shortlisted_updated") = 1 ∧
        ∀ e ∈ entries, e.action = "shortlisted_updated" →
          e.fromVal = toString c.shortlisted ∧ e.toVal = toString b) ∧
    ((updates.shortlisted = none ∨ updates.shortlisted = some c.shortlisted) →
        entries.countP (fun e => e.action == "shortlisted_updated") = 0) ∧
    (∀ b, updates.rejected = some b → b ≠ c.rejected →
        entries.countP (fun e => e.action == "rejected_updated") = 1 ∧
        ∀ e ∈ entries, e.action = "rejected_updated" →
          e.fromVal = toString c.rejected ∧ e.toVal = toString b) ∧
    ((updates.rejected = none ∨ updates.rejected = some c.rejected) →
        entries.countP (fun e => e.action == "rejected_updated") = 0) ∧
    st'.audit = st.audit ++ entries.map (fun e => (id, e)) ∧
    ((updates.status = none ∨ updates.status = some c.status) →
     (updates.shortlisted = none ∨ updates.shortlisted = some c.shortlisted) →
     (updates.rejected = none ∨ updates.rejected = some c.rejected) →
        entries = [] ∧ st'.audit = st.audit) := by
  obtain ⟨c', hc', hu, he, hst⟩ := updateCandidate_ok_elim h
  rw [hc] at hc'
  obtain rfl : c = c' := Option.some.inj hc'
  subst he
  subst hst
  refine ⟨?_, ?_, ?_, ?_, ?_, ?_, rfl, ?_⟩
  · intro s hs hne
    rw [stagedAuditEntries, stagedStatus_of_change c updates s hs hne]
    constructor
    · rw [List.countP_append, List.countP_append,
        countP_action_zero (stagedShortlisted_action c updates) (by decide),
        countP_action_zero (stagedRejected_action c updates) (by decide)]
      rfl
    · intro e he ha
      rcases List.mem_append.mp he with h1 | h2
      · rcases List.mem_append.mp h1 with h1 | h1
        · rw [List.mem_singleton.mp h1]
          exact ⟨rfl, rfl⟩
        · exact absurd (stagedShortlisted_action c updates e h1 ▸ ha) (by decide)
      · exact absurd (stagedRejected_action c updates e h2 ▸ ha) (by decide)
  · intro hs
    rw [stagedAuditEntries, stagedStatus_of_nochange c updates hs,
      List.countP_append, List.countP_append,
      countP_action_zero (stagedShortlisted_action c updates) (by decide),
      countP_action_zero (stagedRejected_action c updates) (by decide)]
    rfl
  · intro b hb hne
    rw [stagedAuditEntries, stagedShortlisted_of_change c updates b hb hne]
    constructor
    · rw [List.countP_append, List.countP_append,
        countP_action_zero (stagedStatus_action c updates) (by decide),
        countP_action_zero (stagedRejected_action c updates) (by decide)]
      rfl
    · intro e he ha
      rcases List.mem_append.mp he with h1 | h2
      · rcases List.mem_append.mp h1 with h1 | h1
        · exact absurd (stagedStatus_action c updates e h1 ▸ ha) (by decide)
        · rw [List.mem_singleton.mp h1]
          exact ⟨rfl, rfl⟩
      · exact absurd (stagedRejected_action c updates e h2 ▸ ha) (by decide)
  · intro hb
    rw [stagedAuditEntries, stagedShortlisted_of_nochange c updates hb,
      List.countP_append, List.countP_append,
      countP_action_zero (stagedStatus_action c updates) (by decide),
      countP_action_zero (stagedRejected_action c updates) (by decide)]
    rfl
  · intro b hb hne
    rw [stagedAuditEntries, stagedRejected_of_change c updates b hb hne]
    constructor
    · rw [List.countP_append, List.countP_append,
        countP_action_zero (stagedStatus_action c updates) (by decide),
        countP_action_zero (stagedShortlisted_action c updates) (by decide)]
      rfl
    · intro e he ha
      rcases List.mem_append.mp he with h1 | h2
      · rcases List.mem_append.mp h1 with h1 | h1
        · exact absurd (stagedStatus_action c updates e h1 ▸ ha) (by decide)
        · exact absurd (stagedShortlisted_action c updates e h1 ▸ ha) (by decide)
      · rw [List.mem_singleton.mp h2]
        exact ⟨rfl, rfl⟩
  · intro hb
    rw [stagedAuditEntries, stagedRejected_of_nochange c updates hb,
      List.countP_append, List.countP_append,
      countP_action_zero (stagedStatus_action c updates) (by decide),
      countP_action_zero (stagedShortlisted_action c updates) (by decide)]
    rfl
  · intro h1 h2 h3
    have hnil : stagedAuditEntries c updates = [] := by
      rw [stagedAuditEntries, stagedStatus_of_nochange c updates h1,
        stagedShortlisted_of_nochange c updates h2,
        stagedRejected_of_nochange c updates h3]
      rfl
    refine ⟨hnil, ?_⟩
    rw [hnil]
    simp

/-- A concrete candidate used as the update-engine witness fixture
(status "screening", not shortlisted, not rejected). -/
def w1Cand : Candidate :=
  { id := "cand_001", fullName := "Alice Johnson", headline := "Developer",
    location := "San Francisco, CA", yearsOfExperience := 8,
    skills := ["JavaScript"], availability := "immediate",
    status := "screening", score := 85, shortlisted := false, rejected := false,
    createdAt := 0, updatedAt := 0 }

/-- A concrete one-candidate server state with empty audit log and cache. -/
def w1State : ServerState := ⟨[w1Cand], [], []⟩

/-- Witness for C1: updating `w1Cand`'s status from "screening" to
"interviewing" stages exactly one `status_updated` event carrying the old and
new values. -/
theorem c1_update_audit_events_witness :
    (stagedAuditEntries w1Cand { status := some "interviewing" }).countP
        (fun e => e.action == "status_updated") = 1 ∧
    ∀ e ∈ stagedAuditEntries w1Cand { status := some "interviewing" },
      e.action = "status_updated" →
        e.fromVal = w1Cand.status ∧ e.toVal = "interviewing" :=
  (c1_update_audit_events w1State 5 "cand_001" { status := some "interviewing" }
      w1Cand _ _ _ rfl rfl).1 "interviewing" rfl (by decide)

/-- C4: `updateCandidate` is all-or-nothing: a missing candidate yields a
NotFoundError; on any failure (missing candidate or storage error) neither
the candidate table nor the persisted audit log changes; on success the
candidate mutation and all staged audit rows are committed together in the
same resulting state. -/
theorem c4_update_atomicity (st : ServerState) (now : Nat) (id : String)
    (updates : UpdateCandidateRequest) (storageOk : Bool) :
    (findUnique st.store id = none →
        (updateCandidate st now id updates storageOk).1 =
          Except.error .notFound) ∧
    (∀ err st', updateCandidate st now id updates storageOk =
          (Except.error err, st') →
        st'.store = st.store ∧ st'.audit = st.audit) ∧
    (∀ c, findUnique st.store id = some c → storageOk = true →
        updateCandidate st now id updates storageOk =
          (Except.ok (applyPatch c updates now, stagedAuditEntries c updates),
           { listCache := [],
             store := st.store.map
               (fun x => if x.id = id then applyPatch c updates now else x),
             audit := st.audit ++
               (stagedAuditEntries c updates).map (fun e => (id, e)) })) := by
  refine ⟨?_, ?_, ?_⟩
  · intro h
    simp [updateCandidate, h]
  · intro err st' h
    rw [updateCandidate_error_elim h]
    exact ⟨rfl, rfl⟩
  · intro c hc hok
    subst hok
    simp [updateCandidate, hc]

/-- Witness for C4 at a concrete input: a missing id fails with NotFoundError
and leaves store and audit untouched, and a present id commits the patch and
its audit entry together. -/
theorem c4_update_atomicity_witness :
    (updateCandidate w1State 5 "missing" { shortlisted := some true } true).1 =
      Except.error .notFound ∧
    (updateCandidate w1State 5 "missing" { shortlisted := some true } true).2.store =
      w1State.store ∧
    updateCandidate w1State 5 "cand_001" { shortlisted := some true } true =
      (Except.ok
        (applyPatch w1Cand { shortlisted := some true } 5,
         stagedAuditEntries w1Cand { shortlisted := some true }),
       { listCache := [],
         store := w1State.store.map
           (fun x => if x.id = "cand_001" then
              applyPatch w1Cand { shortlisted := some true } 5 else x),
         audit := w1State.audit ++
           (stagedAuditEntries w1Cand { shortlisted := some true }).map
             (fun e => ("cand_001", e)) }) := by
  refine ⟨(c4_update_atomicity w1State 5 "missing"
      { shortlisted := some true } true).1 rfl, ?_, ?_⟩
  · exact ((c4_update_atomicity w1State 5 "missing"
      { shortlisted := some true } true).2.1 .notFound _ rfl).1
  · exact (c4_update_atomicity w1State 5 "cand_001"
      { shortlisted := some true } true).2.2 w1Cand rfl rfl

/-- C9: `updateCandidate` clears the whole list cache before it checks that
the target exists, so a call that fails with NotFoundError — changing no
stored data — still leaves the cache empty, invalidating every cached list
result. -/
theorem c9_notfound_clears_cache (st : ServerState) (now : Nat) (id : String)
    (updates : UpdateCandidateRequest) (storageOk : Bool)
    (h : findUnique st.store id = none) :
    updateCandidate st now id updates storageOk =
      (Except.error .notFound, { st with listCache := [] }) ∧
    (updateCandidate st now id updates storageOk).2.listCache = [] ∧
    (updateCandidate st now id updates storageOk).2.store = st.store ∧
    (updateCandidate st now id updates storageOk).2.audit = st.audit := by
  have he : updateCandidate st now id updates storageOk =
      (Except.error .notFound, { st with listCache := [] }) := by
    simp [updateCandidate, h]
  exact ⟨he, by rw [he], by rw [he], by rw [he]⟩

/-- A server state holding a non-empty list cache, for the C9 witness. -/
def w9State : ServerState :=
  ⟨[w1Cand], [],
   [({}, { data := computeListResult [w1Cand] {}, timestamp := 0 })]⟩

/-- Witness for C9: on a state with a cached list result, an update of a
nonexistent id fails with NotFoundError yet empties the cache and leaves the
store and audit log unchanged. -/
theorem c9_notfound_clears_cache_witness :
    (updateCandidate w9State 5 "missing" {} true).2.listCache = [] ∧
    (updateCandidate w9State 5 "missing" {} true).2.store = w9State.store ∧
    (updateCandidate w9State 5 "missing" {} true).1 = Except.error .notFound := by
  have h := c9_notfound_clears_cache w9State 5 "missing" {} true rfl
  exact ⟨h.2.1, h.2.2.1, by rw [h.1]⟩

/-! ### Helper lemmas about the list cache -/

theorem listCandidates_read_elim {st : ServerState} {now : Nat}
    {qry : ListCandidatesQuery} {r : CandidateListResponse} {st1 : ServerState}
    (h : listCandidates st now qry = (r, true, st1)) :
    r = computeListResult st.store qry ∧
    st1 = { st with
            listCache := (qry, { data := r, timestamp := now }) :: st.listCache } := by
  rcases hl : cacheLookup st.listCache qry with _ | entry
  · simp only [listCandidates, hl, listCandidatesMiss, Prod.mk.injEq] at h
    obtain ⟨hr, -, hst⟩ := h
    exact ⟨hr.symm, by rw [← hst, ← hr]⟩
  · by_cases hfresh : now - entry.timestamp < CACHE_TTL
    · simp only [listCandidates, hl, if_pos hfresh, Prod.mk.injEq] at h
      exact absurd h.2.1 (by simp)
    · simp only [listCandidates, hl, if_neg hfresh, listCandidatesMiss,
        Prod.mk.injEq] at h
      obtain ⟨hr, -, hst⟩ := h
      exact ⟨hr.symm, by rw [← hst, ← hr]⟩

theorem listCandidates_hit (entry : CacheEntry) {st : ServerState} {now : Nat}
    {qry : ListCandidatesQuery}
    (hl : cacheLookup st.listCache qry = some entry)
    (hfresh : now - entry.timestamp < CACHE_TTL) :
    listCandidates st now qry = (entry.data, false, st) := by
  simp only [listCandidates, hl, if_pos hfresh]

/-- C3: a second identical list query issued within `CACHE_TTL` of one that
read the store returns the cached response without reading the store again
and without changing the state; and after any successful `updateCandidate`
(which clears the whole cache) the next identical query cannot be served
from a pre-update cache entry: it reads the store and returns the result
computed from the post-update store. -/
theorem c3_cache_behavior (st : ServerState) (qry : ListCandidatesQuery) :
    (∀ t0 t1 r st1, listCandidates st t0 qry = (r, true, st1) →
        t1 - t0 < CACHE_TTL →
        listCandidates st1 t1 qry = (r, false, st1)) ∧
    (∀ now id updates p st2,
        updateCandidate st now id updates true = (Except.ok p, st2) →
        ∀ t2, listCandidates st2 t2 qry =
          (computeListResult st2.store qry, true,
           { st2 with listCache :=
               [(qry, { data := computeListResult st2.store qry,
                        timestamp := t2 })] })) := by
  constructor
  · intro t0 t1 r st1 h hfresh
    obtain ⟨hr, hst1⟩ := listCandidates_read_elim h
    subst hst1
    have hl : cacheLookup
        ((qry, ({ data := r, timestamp := t0 } : CacheEntry)) :: st.listCache)
        qry = some { data := r, timestamp := t0 } := by
      simp [cacheLookup]
    refine listCandidates_hit { data := r, timestamp := t0 } ?_ ?_
    · exact hl
    · exact hfresh
  · intro now id updates p st2 h t2
    obtain ⟨u, entries⟩ := p
    obtain ⟨c, -, -, -, hst⟩ := updateCandidate_ok_elim h
    have hcache : st2.listCache = [] := by rw [hst]
    have hl : cacheLookup st2.listCache qry = none := by rw [hcache]; rfl
    simp only [listCandidates, hl, listCandidatesMiss]
    rw [hcache]

/-- The response of the first (cache-missing) list call on `w1State`. -/
def w3Result : CandidateListResponse := computeListResult [w1Cand] {}

/-- The state after that first list call: the result is cached at time 0. -/
def w3State1 : ServerState :=
  { w1State with listCache := [({}, { data := w3Result, timestamp := 0 })] }

/-- The state after a successful status update on `w1State` at time 5. -/
def w3State2 : ServerState :=
  { listCache := [],
    store := w1State.store.map
      (fun x => if x.id = "cand_001" then
         applyPatch w1Cand { status := some "interviewing" } 5 else x),
    audit := w1State.audit ++
      (stagedAuditEntries w1Cand { status := some "interviewing" }).map
        (fun e => ("cand_001", e)) }

/-- Witness for C3: concretely, a repeat of the same query at time 100
(< 5 minutes) is served from the cache without a store read, and after a
successful update the next query reads the (updated) store. -/
theorem c3_cache_behavior_witness :
    listCandidates w3State1 100 {} = (w3Result, false, w3State1) ∧
    listCandidates w3State2 10 {} =
      (computeListResult w3State2.store {}, true,
       { w3State2 with listCache :=
           [({}, { data := computeListResult w3State2.store {},
                   timestamp := 10 })] }) := by
  constructor
  · exact (c3_cache_behavior w1State {}).1 0 100 w3Result w3State1 rfl (by decide)
  · exact (c3_cache_behavior w1State {}).2 5 "cand_001"
      { status := some "interviewing" }
      (applyPatch w1Cand { status := some "interviewing" } 5,
       stagedAuditEntries w1Cand { status := some "interviewing" })
      w3State2 rfl 10

/-! ### Helper lemmas about the similarity ranking -/

theorem relLe_trans (t : Candidate) : ∀ a b c : Candidate,
    relLe t a b → relLe t b c → relLe t a c := by
  intro a b c hab hbc
  simp only [relLe, decide_eq_true_eq] at hab hbc ⊢
  exact le_trans hbc hab

theorem relLe_total (t : Candidate) : ∀ a b : Candidate,
    relLe t a b || relLe t b a := by
  intro a b
  simp only [relLe, Bool.or_eq_true, decide_eq_true_eq]
  exact le_total _ _

/-- C8: `getRelatedCandidates(id, limit)` (default limit 8) fails with
NotFoundError when the target is absent; otherwise it returns at most
`limit` candidates, never the target itself, ordered by non-increasing
similarity score; and the order is the stable deterministic one: the result
is the prefix of the sort of the enumerated candidate list under
`List.enumLE`, which breaks exact score ties by original enumeration order. -/
theorem c8_related_ranking (st : ServerState) (id : String) (limit : Nat) :
    (findUnique st.store id = none →
        getRelatedCandidates st id limit = Except.error .notFound ∧
        getRelatedCandidatesDefault st id = Except.error .notFound) ∧
    (∀ t, findUnique st.store id = some t →
        ∃ res, getRelatedCandidates st id limit = Except.ok res ∧
          res.length ≤ limit ∧
          (∀ c ∈ res, c.id ≠ id) ∧
          res.Pairwise (fun a b => relScore t b ≤ relScore t a) ∧
          res = ((((st.store.filter (fun c => !(c.id == id))).enum).mergeSort
              (List.enumLE (relLe t))).map (·.2)).take limit) := by
  constructor
  · intro h
    constructor
    · simp [getRelatedCandidates, h]
    · simp [getRelatedCandidatesDefault, getRelatedCandidates, h]
  · intro t ht
    refine ⟨((st.store.filter (fun c => !(c.id == id))).mergeSort (relLe t)).take
        limit, ?_, ?_, ?_, ?_, ?_⟩
    · simp [getRelatedCandidates, ht]
    · simp [List.length_take]
    · intro c hc
      have hmem : c ∈ st.store.filter (fun c => !(c.id == id)) :=
        List.mem_mergeSort.mp ((List.take_sublist _ _).subset hc)
      have := (List.mem_filter.mp hmem).2
      simpa using this
    · have hs := List.sorted_mergeSort (relLe_trans t) (relLe_total t)
        (st.store.filter (fun c => !(c.id == id)))
      have hp : ((st.store.filter (fun c => !(c.id == id))).mergeSort
          (relLe t)).Pairwise (fun a b => relScore t b ≤ relScore t a) :=
        hs.imp fun hab => of_decide_eq_true hab
      exact hp.sublist (List.take_sublist _ _)
    · rw [List.mergeSort_enum]

/-- Witness for C8: concretely, a missing target id fails with NotFoundError
(also at the default limit), and for target `exTarget` in a two-candidate
store the ranked non-target result satisfies every clause. -/
theorem c8_related_ranking_witness :
    (getRelatedCandidates ⟨[w1Cand], [], []⟩ "missing" 8 =
        Except.error .notFound ∧
      getRelatedCandidatesDefault ⟨[w1Cand], [], []⟩ "missing" =
        Except.error .notFound) ∧
    (∃ res, getRelatedCandidates ⟨[exTarget, exCand], [], []⟩ "t1" 8 =
          Except.ok res ∧
        res.length ≤ 8 ∧
        (∀ c ∈ res, c.id ≠ "t1") ∧
        res.Pairwise (fun a b => relScore exTarget b ≤ relScore exTarget a) ∧
        res = (((([exTarget, exCand].filter
            (fun c => !(c.id == "t1"))).enum).mergeSort
            (List.enumLE (relLe exTarget))).map (·.2)).take 8) :=
  ⟨(c8_related_ranking ⟨[w1Cand], [], []⟩ "missing" 8).1 rfl,
   (c8_related_ranking ⟨[exTarget, exCand], [], []⟩ "t1" 8).2 exTarget rfl⟩

end Recruit
